import Mathlib

/-!
Verification of the core annotation/export logic of the yololabel_generator
web application, shallowly embedded in Lean 4.

Numbers are modelled as rationals (`ℚ`): the source operates on JS numbers
with no bit-level tricks, so exact rational arithmetic is the faithful
idealisation used throughout.  Strings that only carry data (ids, names)
are kept as `String`; the YOLO text format is modelled at the token level
(see `Tok` below) because its numeric payload is what the properties are
about, and a 6-decimal fixed-point token denotes an exact rational.
-/

namespace YoloLabel

/-! ## Geometry utilities (src/unnamed/part_001, a utils module) -/

/-- Embedding of `clamp(value, min, max)` (utils):
`Math.min(Math.max(value, min), max)`. -/
def clamp (value lo hi : ℚ) : ℚ := min (max value lo) hi

/-- Embedding of `lerp(start, end, factor)` (utils). -/
def lerp (start stop factor : ℚ) : ℚ := start + (stop - start) * factor

/-- A rectangle `{x, y, w, h}` as used by the geometry utilities. -/
structure Rect where
  x : ℚ
  y : ℚ
  w : ℚ
  h : ℚ
deriving DecidableEq, Repr

/-- Embedding of `rectsIntersect(rect1, rect2)` (utils, lines 120-130):
the negated separating-axis test with strict `<` comparisons. -/
def rectsIntersect (r1 r2 : Rect) : Bool :=
  !(decide (r1.x + r1.w < r2.x) || decide (r2.x + r2.w < r1.x) ||
    decide (r1.y + r1.h < r2.y) || decide (r2.y + r2.h < r1.y))

/-- Embedding of `calculateIntersectionArea(rect1, rect2)` (utils, lines
135-147): returns 0 when `rectsIntersect` is false, otherwise the product
of the overlap extents (which the source does not clamp to be nonnegative). -/
def calculateIntersectionArea (r1 r2 : Rect) : ℚ :=
  if rectsIntersect r1 r2 = false then 0
  else
    (min (r1.x + r1.w) (r2.x + r2.w) - max r1.x r2.x) *
      (min (r1.y + r1.h) (r2.y + r2.h) - max r1.y r2.y)

/-! ## Data model (src/lib/types.ts) -/

/-- Embedding of the `BBox` record (types.ts): a pixel-space box. -/
structure BBox where
  id : String
  imageId : String
  classId : Int
  x : ℚ
  y : ℚ
  w : ℚ
  h : ℚ
  locked : Bool := false
  hidden : Bool := false
deriving DecidableEq, Repr

/-- The `status` field of an `ImageItem` (types.ts line 18). -/
inductive ImgStatus where
  | new
  | labeled
deriving DecidableEq, Repr

/-- Embedding of `ImageItem` (types.ts), restricted to the fields the
claims touch: id and derived status. -/
structure ImageR where
  id : String
  status : ImgStatus
deriving DecidableEq, Repr

/-- Embedding of `ClassDef` (types.ts): id, name, color. -/
structure ClassDef where
  id : Int
  name : String
  color : String
deriving DecidableEq, Repr

/-- Embedding of the `Project` collections the store mutates (types.ts):
images, bboxes, classes. -/
structure Project where
  images : List ImageR
  bboxes : List BBox
  classes : List ClassDef
deriving DecidableEq, Repr

/-! ## YOLO codec (src/lib/yolo.ts) -/

/-- The value denoted by `v.toFixed(6)`: `v` rounded to 6 decimal places,
half away from zero for the nonnegative values produced here. -/
def round6 (t : ℚ) : ℚ := ((Int.floor (t * 1000000 + 1 / 2) : ℤ) : ℚ) / 1000000

/-- One serialized YOLO line `classId xCenter yCenter width height`
(yolo.ts line 26).  The four rational fields are exactly the values the
6-decimal fixed-point tokens denote. -/
structure YoloLine where
  classId : Int
  xCenter : ℚ
  yCenter : ℚ
  width : ℚ
  height : ℚ
deriving DecidableEq, Repr

/-- Embedding of the per-box body of `toYoloTxt` (yolo.ts lines 13-27):
center/size normalisation, clamping into `[0,1]`, 6-decimal serialization. -/
def toYoloLine (bbox : BBox) (imgWidth imgHeight : ℚ) : YoloLine :=
  let xCenter := (bbox.x + bbox.w / 2) / imgWidth
  let yCenter := (bbox.y + bbox.h / 2) / imgHeight
  let width := bbox.w / imgWidth
  let height := bbox.h / imgHeight
  { classId := bbox.classId
    xCenter := round6 (max 0 (min 1 xCenter))
    yCenter := round6 (max 0 (min 1 yCenter))
    width := round6 (max 0 (min 1 width))
    height := round6 (max 0 (min 1 height)) }

/-- Embedding of `toYoloTxt(bboxes, imgWidth, imgHeight)` (yolo.ts lines
8-30), at the level of serialized lines: the empty-input and non-positive
dimension guards return the empty output (the empty string in the source). -/
def toYoloTxt (bboxes : List BBox) (imgWidth imgHeight : ℚ) : List YoloLine :=
  if bboxes.length = 0 ∨ imgWidth ≤ 0 ∨ imgHeight ≤ 0 then []
  else bboxes.map (fun b => toYoloLine b imgWidth imgHeight)

/-- A whitespace-delimited token of an input line, recording what JS
`parseInt(s, 10)` and `parseFloat(s)` return on it (`none` models `NaN`).
Quantifying over all token values covers every possible input string. -/
structure Tok where
  asInt : Option Int
  asFloat : Option ℚ
deriving DecidableEq, Repr

/-- Embedding of one iteration of the parsing loop of `parseYoloTxt`
(yolo.ts lines 43-88) on the tokens of line `i`: skip unless there are
exactly 5 tokens (an empty line has 0 tokens and is likewise skipped),
all parse as numbers, the class id is nonnegative and the four
coordinates lie in `[0,1]`; then convert to pixel space and clamp.
The source's `Date.now()`-based id is modelled by the line index alone,
as no claim concerns the generated id string. -/
def parseLine (imgWidth imgHeight : ℚ) (imageId : String) (i : Nat)
    (toks : List Tok) : Option BBox :=
  match toks with
  | [t0, t1, t2, t3, t4] =>
    match t0.asInt, t1.asFloat, t2.asFloat, t3.asFloat, t4.asFloat with
    | some classId, some xCenter, some yCenter, some width, some height =>
      if classId < 0 ∨ xCenter < 0 ∨ 1 < xCenter ∨ yCenter < 0 ∨ 1 < yCenter ∨
          width < 0 ∨ 1 < width ∨ height < 0 ∨ 1 < height then
        none
      else
        let x := (xCenter - width / 2) * imgWidth
        let y := (yCenter - height / 2) * imgHeight
        let w := width * imgWidth
        let h := height * imgHeight
        some { id := "bbox_" ++ toString i
               imageId := imageId
               classId := classId
               x := max 0 x
               y := max 0 y
               w := min (imgWidth - max 0 x) w
               h := min (imgHeight - max 0 y) h }
    | _, _, _, _, _ => none
  | _ => none

/-- Embedding of `parseYoloTxt(content, imgWidth, imgHeight, imageId)`
(yolo.ts lines 35-91) over tokenized lines.  The source's early return on
blank content is subsumed by the per-line skip of token lists without
exactly 5 entries; the non-positive dimension guard is kept. -/
def parseYoloTxt (lines : List (List Tok)) (imgWidth imgHeight : ℚ)
    (imageId : String) : List BBox :=
  if imgWidth ≤ 0 ∨ imgHeight ≤ 0 then []
  else lines.enum.filterMap (fun p => parseLine imgWidth imgHeight imageId p.1 p.2)

/-- Tokenization of an integer literal such as `"0"`: both `parseInt` and
`parseFloat` recover the integer. -/
def intTok (i : Int) : Tok := ⟨some i, some (i : ℚ)⟩

/-- Tokenization of a nonnegative 6-decimal literal such as `"0.512000"`:
`parseFloat` recovers the denoted rational exactly, `parseInt` stops at
the decimal point (truncation, irrelevant to the parser which only uses
`parseFloat` on coordinate tokens). -/
def decTok (q : ℚ) : Tok := ⟨some (Int.floor q), some q⟩

/-- The token list of a serialized `YoloLine`. -/
def lineToks (l : YoloLine) : List Tok :=
  [intTok l.classId, decTok l.xCenter, decTok l.yCenter, decTok l.width,
    decTok l.height]

/-! ### classes.txt generation and parsing (src/lib/yolo.ts lines 153-183) -/

/-- An `{id, name}` entry as consumed by `generateClassesTxt` and produced
by `parseClassesTxt`. -/
structure ClassEntry where
  id : Int
  name : String
deriving DecidableEq, Repr

/-- Embedding of `generateClassesTxt(classes)` (yolo.ts lines 153-166):
sort by id, allocate `maxId + 1` empty lines, place each name at the line
indexed by its id (ignoring ids outside the array range, as JS array
index assignment plus `join` does), and join with newlines. -/
def generateClassesTxt (classes : List ClassEntry) : String :=
  let sorted := classes.insertionSort (fun a b => a.id ≤ b.id)
  let maxId := (sorted.map (fun c => c.id)).foldr max (-1)
  let classNames := sorted.foldl
    (fun (acc : List String) cls =>
      if 0 ≤ cls.id then acc.set cls.id.toNat cls.name else acc)
    (List.replicate (maxId + 1).toNat "")
  String.intercalate "\n" classNames

/-- Splitting a character list at newline characters, the behaviour of
JS `content.split('\n')`. -/
def splitNlChars (cs : List Char) (cur : List Char) : List (List Char) :=
  match cs with
  | [] => [cur.reverse]
  | c :: rest =>
    if c = '\n' then cur.reverse :: splitNlChars rest []
    else splitNlChars rest (c :: cur)

/-- `content.split('\n')` over `String`. -/
def splitNl (s : String) : List String := (splitNlChars s.data []).map String.mk

/-- JS `String.prototype.trim`: strip whitespace from both ends. -/
def jsTrim (s : String) : String :=
  String.mk (((s.data.dropWhile Char.isWhitespace).reverse.dropWhile
    Char.isWhitespace).reverse)

/-- Embedding of `parseClassesTxt(content)` (yolo.ts lines 171-183):
split on newlines and give each non-blank line the id equal to its line
index. -/
def parseClassesTxt (content : String) : List ClassEntry :=
  (splitNl content).enum.filterMap (fun p =>
    let name := jsTrim p.2
    if name = "" then none else some ⟨(p.1 : Int), name⟩)

/-! ## Viewport and canvas interaction (src/components/CanvasStage.tsx) -/

/-- The viewport state the canvas reads: zoom scale and translation
(types.ts `ViewportState`, restricted to the fields the handlers use). -/
structure Viewport where
  scale : ℚ
  x : ℚ
  y : ℚ
deriving DecidableEq, Repr

/-- Embedding of `stageToImage(x, y)` (CanvasStage.tsx lines 103-108):
screen (stage) coordinates to image coordinates. -/
def stageToImage (vp : Viewport) (p : ℚ × ℚ) : ℚ × ℚ :=
  ((p.1 - vp.x) / vp.scale, (p.2 - vp.y) / vp.scale)

/-- Embedding of `imageToStage(x, y)` (CanvasStage.tsx lines 111-116). -/
def imageToStage (vp : Viewport) (p : ℚ × ℚ) : ℚ × ℚ :=
  (p.1 * vp.scale + vp.x, p.2 * vp.scale + vp.y)

/-- Embedding of the candidate-rectangle computation of `handleMouseMove`
(CanvasStage.tsx lines 157-169): the axis-aligned box of the start point
and the current pointer, both already in image coordinates, clamped into
the image bounds. -/
def handleMouseMove (imgWidth imgHeight : ℚ) (startP cur : ℚ × ℚ) : Rect :=
  let x := min startP.1 cur.1
  let y := min startP.2 cur.2
  let w := |cur.1 - startP.1|
  let h := |cur.2 - startP.2|
  let clampedX := clamp x 0 imgWidth
  let clampedY := clamp y 0 imgHeight
  { x := clampedX
    y := clampedY
    w := clamp w 0 (imgWidth - clampedX)
    h := clamp h 0 (imgHeight - clampedY) }

/-- Embedding of the commit decision of `handleMouseUp` (CanvasStage.tsx
line 174): a drawing gesture is committed only when the current
rectangle's width and height are strictly greater than 5 image pixels. -/
def handleMouseUp (currentRect : Rect) : Bool :=
  decide (5 < currentRect.w) && decide (5 < currentRect.h)

/-- The full draw-gesture pipeline: screen-space start and end pointer
positions are converted through the viewport (`stageToImage`, as
`handleMouseDown`/`handleMouseMove` do), the candidate rectangle is
computed and clamped, and `handleMouseUp` decides whether a box is
committed. -/
def gestureCommits (vp : Viewport) (imgWidth imgHeight : ℚ)
    (startScreen curScreen : ℚ × ℚ) : Bool :=
  handleMouseUp
    (handleMouseMove imgWidth imgHeight (stageToImage vp startScreen)
      (stageToImage vp curScreen))

/-- The Konva node attributes `handleBBoxTransform` reads
(`e.target.attrs`): position, unscaled size, and accumulated scale
factors. -/
structure TransformAttrs where
  x : ℚ
  y : ℚ
  width : ℚ
  height : ℚ
  scaleX : ℚ
  scaleY : ℚ
deriving DecidableEq, Repr

/-- Embedding of `handleBBoxTransform` (CanvasStage.tsx lines 201-213):
convert the node position to image space, rescale the size, clamp the
position into `[0, imageSize - size]` and the size into
`[5, imageSize - position]`, and commit the result via `updateBBox`. -/
def handleBBoxTransform (vp : Viewport) (imgWidth imgHeight : ℚ)
    (a : TransformAttrs) : Rect :=
  let imagePos := stageToImage vp (a.x, a.y)
  let scaledWidth := a.width * a.scaleX / vp.scale
  let scaledHeight := a.height * a.scaleY / vp.scale
  let x := clamp imagePos.1 0 (imgWidth - scaledWidth)
  let y := clamp imagePos.2 0 (imgHeight - scaledHeight)
  { x := x
    y := y
    w := clamp scaledWidth 5 (imgWidth - x)
    h := clamp scaledHeight 5 (imgHeight - y) }

/-- Embedding of `handleWheel` (CanvasStage.tsx lines 216-252): zoom by
the multiplicative factor 1.05 in the direction of the wheel delta, clamp
the new scale into `[minScale, 5]`, and recompute the translation so that
the image point under the pointer stays under the pointer. -/
def handleWheel (vp : Viewport) (containerWidth containerHeight imgWidth
    imgHeight : ℚ) (pointer : ℚ × ℚ) (deltaY : ℚ) : Viewport :=
  let oldScale := vp.scale
  let scaleBy : ℚ := 105 / 100
  let newScale := if 0 < deltaY then oldScale / scaleBy else oldScale * scaleBy
  let minScale := min (containerWidth / imgWidth) (containerHeight / imgHeight) * (1 / 10)
  let maxScale : ℚ := 5
  let clampedScale := clamp newScale minScale maxScale
  let mousePointToX := (pointer.1 - vp.x) / oldScale
  let mousePointToY := (pointer.2 - vp.y) / oldScale
  { scale := clampedScale
    x := pointer.1 - mousePointToX * clampedScale
    y := pointer.2 - mousePointToY * clampedScale }

/-- The observable attributes of the Konva `Rect` the canvas emits for
one bounding box (CanvasStage.tsx lines 358-374).  The class-label swatch
drawn alongside it does not bear on any claim and is omitted. -/
structure RenderedRect where
  x : ℚ
  y : ℚ
  w : ℚ
  h : ℚ
  strokeWidth : ℚ
  opacity : ℚ
  listening : Bool
deriving DecidableEq, Repr

/-- Embedding of the per-box rendering of the bbox map (CanvasStage.tsx
lines 352-389): every box of the current image produces a `Rect` node;
`hidden` boxes are drawn with opacity 0.3, others with opacity 1. -/
def renderBBox (selectedBBoxId : Option String) (b : BBox) : RenderedRect :=
  { x := b.x
    y := b.y
    w := b.w
    h := b.h
    strokeWidth := if selectedBBoxId = some b.id then 3 else 2
    opacity := if b.hidden then 3 / 10 else 1
    listening := !b.locked }

/-- The list of `Rect` nodes emitted for the boxes of the current image
(CanvasStage.tsx lines 352-389, `bboxes.map (...)`). -/
def renderBBoxes (selectedBBoxId : Option String) (bboxes : List BBox) :
    List RenderedRect :=
  bboxes.map (fun b => renderBBox selectedBBoxId b)

/-! ## Store mutations (src/lib/store.ts) -/

/-- The effect of `image.status = st` after
`images.find(img => img.id === imageId)`: mutate the first match only. -/
def updateFirstImage (imgs : List ImageR) (imageId : String)
    (st : ImgStatus) : List ImageR :=
  match imgs with
  | [] => []
  | im :: rest =>
    if im.id = imageId then { im with status := st } :: rest
    else im :: updateFirstImage rest imageId st

/-- Embedding of `addBBox` (store.ts lines 434-451): push the new box and
mark its image `labeled`.  The generated id is part of the supplied box
(the source draws it from `Date.now()` and `Math.random()`, which no
claim concerns). -/
def addBBox (p : Project) (b : BBox) : Project :=
  { p with
    bboxes := p.bboxes ++ [b]
    images := updateFirstImage p.images b.imageId ImgStatus.labeled }

/-- `bboxes.splice(bboxIndex, 1)` after `findIndex`: drop the first box
with the given id. -/
def removeFirstBBox (bboxes : List BBox) (bboxId : String) : List BBox :=
  match bboxes with
  | [] => []
  | b :: rest =>
    if b.id = bboxId then rest else b :: removeFirstBBox rest bboxId

/-- Embedding of `removeBBox` (store.ts lines 465-491): remove the first
box with the given id (no-op when absent); if its image has no remaining
boxes, set that image's status back to `new`. -/
def removeBBox (p : Project) (bboxId : String) : Project :=
  match p.bboxes.find? (fun b => b.id = bboxId) with
  | none => p
  | some bbox =>
    let bboxes := removeFirstBBox p.bboxes bboxId
    let images :=
      if (bboxes.filter (fun b => b.imageId = bbox.imageId)).length = 0 then
        updateFirstImage p.images bbox.imageId ImgStatus.new
      else p.images
    { p with bboxes := bboxes, images := images }

/-- `images.splice(imageIndex, 1)` after `findIndex`: drop the first
image with the given id. -/
def removeFirstImage (imgs : List ImageR) (imageId : String) : List ImageR :=
  match imgs with
  | [] => []
  | im :: rest =>
    if im.id = imageId then rest else im :: removeFirstImage rest imageId

/-- Embedding of the state update of `removeImage` (store.ts): no-op when
the id is absent, otherwise remove the image and every box referencing
it (the Cloudinary/blob-URL cleanup is external I/O outside this model). -/
def removeImage (p : Project) (imageId : String) : Project :=
  if p.images.any (fun im => im.id = imageId) then
    { p with
      images := removeFirstImage p.images imageId
      bboxes := p.bboxes.filter (fun b => b.imageId ≠ imageId) }
  else p

/-- Embedding of `removeClass` (store.ts lines 363-386): filter the class
out of the class list and delete every box carrying that class id.  Note
the image `status` fields are left untouched.  (The `selectedClassId`
adjustment concerns the tool state, not the project collections.) -/
def removeClass (p : Project) (classId : Int) : Project :=
  { p with
    classes := p.classes.filter (fun cls => cls.id ≠ classId)
    bboxes := p.bboxes.filter (fun b => b.classId ≠ classId) }

/-- Embedding of `addClass` (store.ts lines 348-361): the new class gets
id `Math.max(...ids, -1) + 1`.  The random display color is a parameter
here because `generateRandomColor()` is nondeterministic. -/
def addClass (classes : List ClassDef) (name color : String) : List ClassDef :=
  let maxId := (classes.map (fun c => c.id)).foldr max (-1)
  classes ++ [{ id := maxId + 1, name := name, color := color }]

/-- The status derivation the spec states for C8: an image is `labeled`
exactly when at least one box in the store references it. -/
def statusInvariant (p : Project) : Prop :=
  ∀ im ∈ p.images,
    im.status =
      if p.bboxes.any (fun b => b.imageId = im.id) then ImgStatus.labeled
      else ImgStatus.new

instance (p : Project) : Decidable (statusInvariant p) := by
  unfold statusInvariant
  infer_instance

/-- A concrete hidden box of the current image, for evaluating the
render. -/
def hiddenBoxEx : BBox :=
  { id := "b1", imageId := "img1", classId := 0, x := 10, y := 10, w := 20,
    h := 20, locked := false, hidden := true }

/-- A concrete one-image, one-box, one-class project, for evaluating the
store mutations. -/
def c8Project : Project :=
  { images := [{ id := "img1", status := ImgStatus.labeled }]
    bboxes := [{ id := "b1", imageId := "img1", classId := 0, x := 10,
                 y := 10, w := 20, h := 20 }]
    classes := [{ id := 0, name := "dog", color := "red" }] }

/-- A 1x1-pixel box at the origin of a very wide (10^7 x 1) image: its
normalized width 10^-7 serializes to `0.000000`, so the round-trip loses
the box entirely. -/
def c1Box : BBox :=
  { id := "b0", imageId := "img1", classId := 0, x := 0, y := 0, w := 1, h := 1 }

/-- An ordinary in-bounds box on a 100x100 image, for instantiating the
round-trip theorem. -/
def c1WitnessBox : BBox :=
  { id := "w1", imageId := "imgW", classId := 0, x := 10, y := 20, w := 30,
    h := 40 }

/-- A class-list operation for C10: `addClass` (with its name and color
arguments) or `removeClass` (restricted to the class list). -/
inductive ClassOp where
  | add (name color : String)
  | remove (classId : Int)

/-- Apply one `ClassOp` to the class list: `addClass`, or the class-list
part of `removeClass`. -/
def applyClassOp (classes : List ClassDef) : ClassOp → List ClassDef
  | ClassOp.add name color => addClass classes name color
  | ClassOp.remove classId => classes.filter (fun cls => cls.id ≠ classId)

/-- Apply a sequence of class-list operations in order. -/
def applyClassOps (classes : List ClassDef) (ops : List ClassOp) : List ClassDef :=
  ops.foldl applyClassOp classes

/-- Pairwise-distinct class ids. -/
def distinctIds (classes : List ClassDef) : Prop :=
  classes.Pairwise (fun a b => a.id ≠ b.id)

instance (classes : List ClassDef) : Decidable (distinctIds classes) := by
  unfold distinctIds
  infer_instance

end YoloLabel

namespace YoloLabel

/-! ## Helper lemmas -/

/-- Rounding to 6 decimals moves a value up by at most half an ulp. -/
theorem round6_le (t : ℚ) : round6 t ≤ t + 1 / 2000000 := by
  rw [round6]
  have h := Int.floor_le (t * 1000000 + 1 / 2)
  rw [div_le_iff₀ (by norm_num : (0 : ℚ) < 1000000)]
  linarith

/-- Rounding to 6 decimals moves a value down by less than half an ulp. -/
theorem round6_gt (t : ℚ) : t - 1 / 2000000 < round6 t := by
  rw [round6]
  have h := Int.lt_floor_add_one (t * 1000000 + 1 / 2)
  rw [lt_div_iff₀ (by norm_num : (0 : ℚ) < 1000000)]
  linarith

/-- Rounding preserves nonnegativity. -/
theorem round6_nonneg (t : ℚ) (ht : 0 ≤ t) : 0 ≤ round6 t := by
  rw [round6]
  apply div_nonneg _ (by norm_num)
  have : (0 : ℤ) ≤ Int.floor (t * 1000000 + 1 / 2) := by
    apply Int.le_floor.mpr
    push_cast
    linarith
  exact_mod_cast this

/-- Rounding a value that is at most 1 stays at most 1. -/
theorem round6_le_one (t : ℚ) (ht : t ≤ 1) : round6 t ≤ 1 := by
  rw [round6]
  rw [div_le_one (by norm_num : (0 : ℚ) < 1000000)]
  have : Int.floor (t * 1000000 + 1 / 2) ≤ 1000000 := by
    rw [Int.floor_le_iff]
    push_cast
    linarith
  exact_mod_cast this

/-- Every entry of a list is at most its `foldr max` against any seed. -/
theorem le_foldr_max (l : List Int) (seed : Int) :
    ∀ a ∈ l, a ≤ l.foldr max seed := by
  induction l with
  | nil => intro a ha; cases ha
  | cons b rest ih =>
    intro a ha
    rcases List.mem_cons.mp ha with h | h
    · subst h
      exact le_max_left _ _
    · exact le_trans (ih a h) (le_max_right _ _)

end YoloLabel

namespace YoloLabel

/-! ## C9 theorems: degenerate rectangles and `calculateIntersectionArea` -/

/-- C9 counterexample: the claim says any pair with a zero/negative-size
rectangle yields area exactly 0, but `rect1 = {x:0,y:0,w:-2,h:5}` and
`rect2 = {x:-3,y:0,w:10,h:5}` pass the strict separating-axis test and
produce area `-10 ≠ 0`. -/
theorem c9_degenerate_area_counterexample :
    calculateIntersectionArea ⟨0, 0, -2, 5⟩ ⟨-3, 0, 10, 5⟩ = -10 ∧
    calculateIntersectionArea ⟨0, 0, -2, 5⟩ ⟨-3, 0, 10, 5⟩ ≠ 0 := by
  rw [calculateIntersectionArea, rectsIntersect]
  norm_num

/-- C9 amended: if at least one of the four extents is exactly zero,
`calculateIntersectionArea` returns exactly 0; for negative sizes the
result can be negative rather than 0 (see the counterexample), though the
function is total and never throws. -/
theorem c9_zero_size_zero_area (r1 r2 : Rect)
    (hz : r1.w = 0 ∨ r1.h = 0 ∨ r2.w = 0 ∨ r2.h = 0) :
    calculateIntersectionArea r1 r2 = 0 := by
  rw [calculateIntersectionArea]
  by_cases hI : rectsIntersect r1 r2 = false
  · rw [if_pos hI]
  · rw [if_neg hI]
    have hIt : rectsIntersect r1 r2 = true := by
      cases h : rectsIntersect r1 r2
      · exact absurd h hI
      · rfl
    rw [rectsIntersect] at hIt
    simp only [Bool.not_eq_eq_eq_not, Bool.not_true, Bool.or_eq_false_iff,
      decide_eq_false_iff_not, not_lt] at hIt
    obtain ⟨⟨⟨hx1, hx2⟩, hy1⟩, hy2⟩ := hIt
    rcases hz with h0 | h0 | h0 | h0
    · have hl : max r1.x r2.x = r1.x := max_eq_left (by linarith)
      have hr : min (r1.x + r1.w) (r2.x + r2.w) = r1.x + r1.w :=
        min_eq_left (by linarith)
      rw [hl, hr, h0]
      ring
    · have hl : max r1.y r2.y = r1.y := max_eq_left (by linarith)
      have hr : min (r1.y + r1.h) (r2.y + r2.h) = r1.y + r1.h :=
        min_eq_left (by linarith)
      rw [hl, hr, h0]
      ring
    · have hl : max r1.x r2.x = r2.x := max_eq_right (by linarith)
      have hr : min (r1.x + r1.w) (r2.x + r2.w) = r2.x + r2.w :=
        min_eq_right (by linarith)
      rw [hl, hr, h0]
      ring
    · have hl : max r1.y r2.y = r2.y := max_eq_right (by linarith)
      have hr : min (r1.y + r1.h) (r2.y + r2.h) = r2.y + r2.h :=
        min_eq_right (by linarith)
      rw [hl, hr, h0]
      ring

/-- C9 witness: the amended theorem applied to a concrete zero-width
rectangle against an ordinary one. -/
theorem c9_zero_size_zero_area_witness :
    calculateIntersectionArea ⟨2, 0, 0, 5⟩ ⟨0, 0, 5, 5⟩ = 0 :=
  c9_zero_size_zero_area ⟨2, 0, 0, 5⟩ ⟨0, 0, 5, 5⟩ (Or.inl rfl)

/-! ## C6 theorems: classes.txt generation and re-parsing -/

/-- C6 counterexample: generating classes.txt for
`[{id:0,name:"dog"},{id:2,name:"cat"}]` and re-parsing does NOT assign
the sequential ids `0:dog, 1:cat` the claim states: the parser assigns
each name the id of its line number, keeping the gap. -/
theorem c6_classes_roundtrip_counterexample :
    parseClassesTxt (generateClassesTxt [⟨0, "dog"⟩, ⟨2, "cat"⟩]) ≠
      [⟨0, "dog"⟩, ⟨1, "cat"⟩] := by
  decide

/-- C6 amended: generation produces exactly the three lines `dog`, ``
(empty placeholder), `cat` with line number equal to classId, and
re-parsing that text assigns each non-empty line the id of its line
number — `0:dog, 2:cat` — so generation and parsing are symmetric and the
ids round-trip (the claimed sequential renumbering `0:dog, 1:cat` does
not happen). -/
theorem c6_classes_roundtrip :
    generateClassesTxt [⟨0, "dog"⟩, ⟨2, "cat"⟩] = "dog\n\ncat" ∧
    splitNl (generateClassesTxt [⟨0, "dog"⟩, ⟨2, "cat"⟩]) = ["dog", "", "cat"] ∧
    parseClassesTxt (generateClassesTxt [⟨0, "dog"⟩, ⟨2, "cat"⟩]) =
      [⟨0, "dog"⟩, ⟨2, "cat"⟩] := by
  refine ⟨by decide, by decide, by decide⟩

end YoloLabel

namespace YoloLabel

/-! ## C2 theorem: clamping on transform commit -/

/-- C2 failing input, evaluated: with a 100x100 image, identity viewport,
and a transform whose requested width 110 exceeds the image width,
`handleBBoxTransform` commits `x = clamp(0, 0, 100 - 110) = -10 < 0`
(`clamp` with crossed bounds returns the upper bound), violating `0 ≤ x`;
and with a requested width of 1 at `x = 99.5` it commits `w = 1 < 5`,
violating the minimum size.  Neither call is a no-op: `updateBBox` stores
the result unconditionally. -/
theorem c2_transform_violates_invariants :
    (handleBBoxTransform ⟨1, 0, 0⟩ 100 100 ⟨0, 0, 110, 10, 1, 1⟩).x = -10 ∧
    ¬(0 ≤ (handleBBoxTransform ⟨1, 0, 0⟩ 100 100 ⟨0, 0, 110, 10, 1, 1⟩).x) ∧
    (handleBBoxTransform ⟨1, 0, 0⟩ 100 100 ⟨199 / 2, 0, 1, 10, 1, 1⟩).w = 1 ∧
    ¬(5 ≤ (handleBBoxTransform ⟨1, 0, 0⟩ 100 100 ⟨199 / 2, 0, 1, 10, 1, 1⟩).w) := by
  rw [handleBBoxTransform, handleBBoxTransform]
  norm_num [stageToImage, clamp]

/-! ## C3 theorems: draw-gesture size threshold -/

/-- C3 counterexample: a completed draw gesture whose clamped candidate
rectangle is exactly 5x5 image pixels is NOT committed — at scale 0.1 and
at scale 5.0 alike — because the commit test is strict (`w > 5 && h > 5`). -/
theorem c3_five_by_five_counterexample :
    gestureCommits ⟨1 / 10, 0, 0⟩ 100 100 (0, 0) (1 / 2, 1 / 2) = false ∧
    gestureCommits ⟨5, 0, 0⟩ 100 100 (0, 0) (25, 25) = false := by
  constructor <;>
    · rw [gestureCommits, handleMouseUp]
      norm_num [stageToImage, handleMouseMove, clamp, abs]

/-- C3 amended: the commit decision depends only on the image-space
candidate rectangle, so it is identical at every zoom scale; but the
threshold is strict: a clamped candidate rectangle with `w ≤ 5` or
`h ≤ 5` (in particular exactly 5x5, and any 4x4) is always discarded,
and one with `w > 5` and `h > 5` is always committed. -/
theorem c3_threshold_strict_and_zoom_invariant (vp1 vp2 : Viewport)
    (W H : ℚ) (s1 c1 s2 c2 : ℚ × ℚ)
    (hs : stageToImage vp1 s1 = stageToImage vp2 s2)
    (hc : stageToImage vp1 c1 = stageToImage vp2 c2) :
    gestureCommits vp1 W H s1 c1 = gestureCommits vp2 W H s2 c2 ∧
    (∀ startP cur : ℚ × ℚ,
      (handleMouseMove W H startP cur).w ≤ 5 ∨
        (handleMouseMove W H startP cur).h ≤ 5 →
      handleMouseUp (handleMouseMove W H startP cur) = false) ∧
    (∀ startP cur : ℚ × ℚ,
      5 < (handleMouseMove W H startP cur).w →
      5 < (handleMouseMove W H startP cur).h →
      handleMouseUp (handleMouseMove W H startP cur) = true) := by
  refine ⟨?_, ?_, ?_⟩
  · rw [gestureCommits, gestureCommits, hs, hc]
  · intro startP cur h
    rw [handleMouseUp]
    rcases h with h | h
    · simp [not_lt.mpr h]
    · simp [not_lt.mpr h]
  · intro startP cur hw hh
    rw [handleMouseUp]
    simp [hw, hh]

/-- C3 witness: the amended theorem applied at concrete viewports of
scale 0.1 and 5.0 whose screen gestures map to the same image points. -/
theorem c3_threshold_strict_and_zoom_invariant_witness :
    gestureCommits ⟨1 / 10, 0, 0⟩ 100 100 (0, 0) (6 / 10, 6 / 10) =
      gestureCommits ⟨5, 0, 0⟩ 100 100 (0, 0) (30, 30) :=
  (c3_threshold_strict_and_zoom_invariant ⟨1 / 10, 0, 0⟩ ⟨5, 0, 0⟩ 100 100
    (0, 0) (6 / 10, 6 / 10) (0, 0) (30, 30)
    (by rw [stageToImage, stageToImage]; norm_num)
    (by rw [stageToImage, stageToImage]; norm_num)).1

/-! ## C4 theorems: hidden boxes are faded, not skipped -/

/-- C4 counterexample: a `hidden` box of the current image is NOT skipped
by the canvas render: it produces a full `Rect` node, drawn at reduced
opacity 0.3. -/
theorem c4_hidden_rendered_counterexample :
    renderBBoxes none [hiddenBoxEx] =
      [{ x := 10, y := 10, w := 20, h := 20, strokeWidth := 2,
         opacity := 3 / 10, listening := true }] ∧
    renderBBoxes none [hiddenBoxEx] ≠ [] := by
  constructor
  · rw [renderBBoxes, List.map_cons, List.map_nil, renderBBox]
    simp [hiddenBoxEx]
  · rw [renderBBoxes, List.map_cons, List.map_nil]
    simp

/-- C4 amended: the render emits exactly one `Rect` node per box of the
current image, hidden or not; a hidden box is drawn faded at opacity 0.3
while a non-hidden box is drawn at opacity 1. -/
theorem c4_render_opacity (sel : Option String) (bs : List BBox) (i : Nat) :
    (renderBBoxes sel bs).length = bs.length ∧
    (renderBBoxes sel bs)[i]?.map (fun r => r.opacity) =
      bs[i]?.map (fun b => if b.hidden then (3 : ℚ) / 10 else 1) := by
  constructor
  · rw [renderBBoxes, List.length_map]
  · rw [renderBBoxes, List.getElem?_map]
    cases bs[i]? with
    | none => rfl
    | some b => simp [renderBBox]

/-! ## C7 theorem: wheel zoom is anchored at the pointer -/

/-- The translation recomputation of `handleWheel` cancels exactly: the
coordinate algebra behind the anchor invariance. -/
theorem zoom_translation_cancels (px vx s cs : ℚ) (hs : s ≠ 0) (hcs : cs ≠ 0) :
    (px - (px - (px - vx) / s * cs)) / cs = (px - vx) / s := by
  field_simp
  ring

/-- C7 confirmed: for any viewport with positive scale, positive container
and image dimensions, any pointer position and any wheel delta, the image
point under the pointer is unchanged by `handleWheel` — exactly, in
rational arithmetic, including when the new scale is clamped into
`[minScale, 5]`. -/
theorem c7_zoom_preserves_pointer_image_point (vp : Viewport)
    (containerWidth containerHeight imgWidth imgHeight : ℚ)
    (pointer : ℚ × ℚ) (deltaY : ℚ) (hs : 0 < vp.scale)
    (hcW : 0 < containerWidth) (hcH : 0 < containerHeight)
    (hiW : 0 < imgWidth) (hiH : 0 < imgHeight) :
    stageToImage
      (handleWheel vp containerWidth containerHeight imgWidth imgHeight
        pointer deltaY) pointer =
      stageToImage vp pointer := by
  have hmin : 0 < min (containerWidth / imgWidth) (containerHeight / imgHeight) * (1 / 10) :=
    mul_pos (lt_min (div_pos hcW hiW) (div_pos hcH hiH)) (by norm_num)
  have hnew : 0 < (if 0 < deltaY then vp.scale / (105 / 100) else vp.scale * (105 / 100)) := by
    split
    · exact div_pos hs (by norm_num)
    · exact mul_pos hs (by norm_num)
  have hclamp : 0 < clamp
      (if 0 < deltaY then vp.scale / (105 / 100) else vp.scale * (105 / 100))
      (min (containerWidth / imgWidth) (containerHeight / imgHeight) * (1 / 10)) 5 := by
    rw [clamp]
    exact lt_min (lt_of_lt_of_le hmin (le_max_right _ _)) (by norm_num)
  rw [handleWheel, stageToImage, stageToImage]
  simp only
  rw [Prod.mk.injEq]
  exact ⟨zoom_translation_cancels _ _ _ _ (ne_of_gt hs) (ne_of_gt hclamp),
    zoom_translation_cancels _ _ _ _ (ne_of_gt hs) (ne_of_gt hclamp)⟩

/-- C7 witness: the anchor-invariance theorem applied at a concrete
viewport, container, image, pointer and wheel delta. -/
theorem c7_zoom_preserves_pointer_image_point_witness :
    stageToImage (handleWheel ⟨1, 0, 0⟩ 800 600 400 300 (100, 100) 1)
      (100, 100) = stageToImage ⟨1, 0, 0⟩ (100, 100) :=
  c7_zoom_preserves_pointer_image_point ⟨1, 0, 0⟩ 800 600 400 300 (100, 100) 1
    (by norm_num) (by norm_num) (by norm_num) (by norm_num) (by norm_num)

end YoloLabel

namespace YoloLabel

/-! ## C8 theorem: image status after store mutations -/

/-- C8 failing input, evaluated: `c8Project` satisfies the status
derivation (its one image is `labeled` and owns one box), but after
`removeClass 0` every box is gone while the image is still marked
`labeled` — `removeClass` deletes the class's boxes without updating the
owning images' status, unlike `addBBox` and `removeBBox` which maintain
it. -/
theorem c8_removeClass_leaves_stale_status :
    statusInvariant c8Project ∧
    (removeClass c8Project 0).bboxes = [] ∧
    (removeClass c8Project 0).images =
      [{ id := "img1", status := ImgStatus.labeled }] ∧
    ¬statusInvariant (removeClass c8Project 0) := by
  refine ⟨by decide, by decide, by decide, by decide⟩

/-! ## C10 theorems: class id assignment -/

/-- `addClass` appends a class whose id exceeds every existing id. -/
theorem addClass_distinct (classes : List ClassDef) (name color : String)
    (h : distinctIds classes) : distinctIds (addClass classes name color) := by
  rw [distinctIds, addClass, List.pairwise_append]
  refine ⟨h, List.pairwise_singleton _ _, ?_⟩
  intro a ha b hb
  rw [List.mem_singleton] at hb
  subst hb
  have hle : a.id ≤ (classes.map (fun c => c.id)).foldr max (-1) :=
    le_foldr_max _ _ _ (List.mem_map_of_mem _ ha)
  intro hcontra
  have hc2 : a.id = (classes.map (fun c => c.id)).foldr max (-1) + 1 := hcontra
  omega

/-- Any sequence of `addClass`/`removeClass` operations preserves
pairwise-distinct class ids. -/
theorem applyClassOps_distinct (classes : List ClassDef) (ops : List ClassOp)
    (h : distinctIds classes) : distinctIds (applyClassOps classes ops) := by
  induction ops generalizing classes with
  | nil => exact h
  | cons op rest ih =>
    show distinctIds (applyClassOps (applyClassOp classes op) rest)
    apply ih
    cases op with
    | add name color => exact addClass_distinct classes name color h
    | remove classId => exact List.Pairwise.sublist (List.filter_sublist _) h

/-- C10 confirmed: `addClass` always assigns id
`Math.max(...existing ids, -1) + 1` — so id 0 on an empty list — after
any sequence of `addClass`/`removeClass` the ids stay pairwise distinct,
and `removeClass` never renumbers the surviving classes (each survives
unchanged), so gaps persist and a freed smaller id is not reused: after
adding three classes (ids 0,1,2), removing id 1 and adding again, the ids
are `[0, 2, 3]`, not `[0, 1, 2]`. -/
theorem c10_addClass_max_plus_one :
    (∀ (classes : List ClassDef) (name color : String),
      (addClass classes name color).map (fun c => c.id) =
        classes.map (fun c => c.id) ++
          [(classes.map (fun c => c.id)).foldr max (-1) + 1]) ∧
    (∀ name color, addClass [] name color =
      [{ id := 0, name := name, color := color }]) ∧
    (∀ (classes : List ClassDef) (ops : List ClassOp),
      distinctIds classes → distinctIds (applyClassOps classes ops)) ∧
    (∀ (classes : List ClassDef) (classId : Int),
      ∀ cls ∈ applyClassOp classes (ClassOp.remove classId), cls ∈ classes) ∧
    (applyClassOps []
        [ClassOp.add "a" "c1", ClassOp.add "b" "c2", ClassOp.add "c" "c3",
          ClassOp.remove 1, ClassOp.add "d" "c4"]).map (fun c => c.id) =
      [0, 2, 3] := by
  refine ⟨?_, ?_, applyClassOps_distinct, ?_, by decide⟩
  · intro classes name color
    rw [addClass, List.map_append, List.map_cons, List.map_nil]
  · intro name color
    rw [addClass]
    norm_num
  · intro classes classId cls hcls
    exact List.mem_of_mem_filter hcls

/-- C10 witness: the distinctness conjunct applied to a concrete class
list and operation sequence. -/
theorem c10_addClass_max_plus_one_witness :
    distinctIds (applyClassOps [{ id := 5, name := "x", color := "c0" }]
      [ClassOp.add "y" "c1", ClassOp.remove 5]) :=
  c10_addClass_max_plus_one.2.2.1 [{ id := 5, name := "x", color := "c0" }]
    [ClassOp.add "y" "c1", ClassOp.remove 5] (by decide)

/-! ## C5 theorems: bounds on imported boxes -/

/-- C5 counterexample: `parseYoloTxt` accepts a line whose normalized
width is exactly 0 (the range check only rejects values outside `[0,1]`),
so import can produce a box with `w = 0`, contradicting the claimed
strict positivity `w > 0`. -/
theorem c5_zero_width_counterexample :
    (parseYoloTxt
        [[intTok 0, decTok (1 / 2), decTok (1 / 2), decTok 0, decTok (1 / 2)]]
        100 100 "img1").map (fun b => (b.x, b.y, b.w, b.h)) =
      [(50, 25, 0, 50)] ∧
    ¬(∀ b ∈ parseYoloTxt
        [[intTok 0, decTok (1 / 2), decTok (1 / 2), decTok 0, decTok (1 / 2)]]
        100 100 "img1", 0 < b.w) := by
  have hEq : (parseYoloTxt
      [[intTok 0, decTok (1 / 2), decTok (1 / 2), decTok 0, decTok (1 / 2)]]
      100 100 "img1").map (fun b => (b.x, b.y, b.w, b.h)) = [(50, 25, 0, 50)] := by
    rw [parseYoloTxt]
    norm_num [List.enum, List.enumFrom, List.filterMap_cons, parseLine,
      intTok, decTok]
  refine ⟨hEq, fun h => ?_⟩
  have hmem : ∀ b ∈ parseYoloTxt
      [[intTok 0, decTok (1 / 2), decTok (1 / 2), decTok 0, decTok (1 / 2)]]
      100 100 "img1", b.w = 0 := by
    intro b hb
    have : (b.x, b.y, b.w, b.h) ∈ [((50 : ℚ), (25 : ℚ), (0 : ℚ), (50 : ℚ))] := by
      rw [← hEq]
      exact List.mem_map_of_mem _ hb
    rw [List.mem_singleton] at this
    have := congrArg (fun p => p.2.2.1) this
    exact this
  rcases hx : parseYoloTxt
      [[intTok 0, decTok (1 / 2), decTok (1 / 2), decTok 0, decTok (1 / 2)]]
      100 100 "img1" with _ | ⟨b, rest⟩
  · rw [hx] at hEq
    simp at hEq
  · have hb : b ∈ parseYoloTxt
        [[intTok 0, decTok (1 / 2), decTok (1 / 2), decTok 0, decTok (1 / 2)]]
        100 100 "img1" := by
      rw [hx]; exact List.mem_cons_self _ _
    have h1 := h b hb
    have h2 := hmem b hb
    rw [h2] at h1
    exact lt_irrefl 0 h1

/-- C5 amended: for every tokenized input and positive image dimensions,
every box produced by `parseYoloTxt` satisfies `0 ≤ x`, `0 ≤ y`,
`x + w ≤ W`, `y + h ≤ H` and the NON-strict `0 ≤ w`, `0 ≤ h` — the size
can be exactly zero (see the counterexample) but never negative, and the
box never exceeds the image bounds. -/
theorem c5_parse_within_bounds (lines : List (List Tok))
    (imgWidth imgHeight : ℚ) (imageId : String)
    (hW : 0 < imgWidth) (hH : 0 < imgHeight) :
    ∀ b ∈ parseYoloTxt lines imgWidth imgHeight imageId,
      0 ≤ b.x ∧ 0 ≤ b.y ∧ 0 ≤ b.w ∧ 0 ≤ b.h ∧
      b.x + b.w ≤ imgWidth ∧ b.y + b.h ≤ imgHeight := by
  intro b hb
  rw [parseYoloTxt] at hb
  rw [if_neg (by push_neg; exact ⟨hW, hH⟩)] at hb
  rcases List.mem_filterMap.mp hb with ⟨⟨i, toks⟩, _, hparse⟩
  rcases toks with _ | ⟨t0, toks⟩
  · simp [parseLine] at hparse
  rcases toks with _ | ⟨t1, toks⟩
  · simp [parseLine] at hparse
  rcases toks with _ | ⟨t2, toks⟩
  · simp [parseLine] at hparse
  rcases toks with _ | ⟨t3, toks⟩
  · simp [parseLine] at hparse
  rcases toks with _ | ⟨t4, toks⟩
  · simp [parseLine] at hparse
  rcases toks with _ | ⟨t5, toks⟩
  swap
  · simp [parseLine] at hparse
  simp only [parseLine] at hparse
  rcases h0 : t0.asInt with _ | classId
  · rw [h0] at hparse; simp at hparse
  rcases h1 : t1.asFloat with _ | xCenter
  · rw [h0, h1] at hparse; simp at hparse
  rcases h2 : t2.asFloat with _ | yCenter
  · rw [h0, h1, h2] at hparse; simp at hparse
  rcases h3 : t3.asFloat with _ | width
  · rw [h0, h1, h2, h3] at hparse; simp at hparse
  rcases h4 : t4.asFloat with _ | height
  · rw [h0, h1, h2, h3, h4] at hparse; simp at hparse
  rw [h0, h1, h2, h3, h4] at hparse
  simp only [] at hparse
  split at hparse
  · exact absurd hparse Option.noConfusion
  next hvalid =>
    push_neg at hvalid
    obtain ⟨-, hxc0, hxc1, hyc0, hyc1, hw0, hw1, hh0, hh1⟩ := hvalid
    rw [Option.some.injEq] at hparse
    subst hparse
    simp only
    have hxle : (xCenter - width / 2) * imgWidth ≤ imgWidth := by
      nlinarith
    have hyle : (yCenter - height / 2) * imgHeight ≤ imgHeight := by
      nlinarith
    have hmaxx : max 0 ((xCenter - width / 2) * imgWidth) ≤ imgWidth :=
      max_le hW.le hxle
    have hmaxy : max 0 ((yCenter - height / 2) * imgHeight) ≤ imgHeight :=
      max_le hH.le hyle
    refine ⟨le_max_left _ _, le_max_left _ _, ?_, ?_, ?_, ?_⟩
    · exact le_min (by linarith) (by nlinarith)
    · exact le_min (by linarith) (by nlinarith)
    · have := min_le_left (imgWidth - max 0 ((xCenter - width / 2) * imgWidth))
        (width * imgWidth)
      linarith
    · have := min_le_left (imgHeight - max 0 ((yCenter - height / 2) * imgHeight))
        (height * imgHeight)
      linarith

/-- C5 witness: the bounds theorem applied to a concrete two-line input
(one valid line, one malformed line) on a 100x100 image. -/
theorem c5_parse_within_bounds_witness :
    (parseYoloTxt
        [[intTok 0, decTok (1 / 2), decTok (1 / 2), decTok (1 / 4), decTok (1 / 4)],
          [intTok 1, decTok (1 / 2)]]
        100 100 "img1").all
      (fun b => decide (0 ≤ b.x ∧ 0 ≤ b.y ∧ 0 ≤ b.w ∧ 0 ≤ b.h ∧
        b.x + b.w ≤ 100 ∧ b.y + b.h ≤ 100)) = true := by
  rw [List.all_eq_true]
  intro b hb
  exact decide_eq_true
    (c5_parse_within_bounds _ 100 100 "img1" (by norm_num) (by norm_num) b hb)

end YoloLabel

namespace YoloLabel

/-! ## C1 theorems: serialize/parse round-trip -/

/-- Parsing the token list of a serialized line whose class id is
nonnegative and whose four fields lie in `[0,1]` succeeds and produces
the clamped pixel-space box. -/
theorem parseLine_lineToks (l : YoloLine) (W H : ℚ) (imageId : String)
    (i : Nat) (hc : 0 ≤ l.classId)
    (hA0 : 0 ≤ l.xCenter) (hA1 : l.xCenter ≤ 1)
    (hB0 : 0 ≤ l.yCenter) (hB1 : l.yCenter ≤ 1)
    (hU0 : 0 ≤ l.width) (hU1 : l.width ≤ 1)
    (hV0 : 0 ≤ l.height) (hV1 : l.height ≤ 1) :
    parseLine W H imageId i (lineToks l) =
      some { id := "bbox_" ++ toString i
             imageId := imageId
             classId := l.classId
             x := max 0 ((l.xCenter - l.width / 2) * W)
             y := max 0 ((l.yCenter - l.height / 2) * H)
             w := min (W - max 0 ((l.xCenter - l.width / 2) * W)) (l.width * W)
             h := min (H - max 0 ((l.yCenter - l.height / 2) * H)) (l.height * H) } := by
  rw [lineToks]
  simp only [parseLine, intTok, decTok]
  rw [if_neg]
  push_neg
  exact ⟨hc, hA0, hA1, hB0, hB1, hU0, hU1, hV0, hV1⟩

/-- `parseYoloTxt` on exactly one serialized in-range line yields exactly
one clamped box. -/
theorem parseYoloTxt_single (l : YoloLine) (W H : ℚ) (imageId : String)
    (hW : 0 < W) (hH : 0 < H) (hc : 0 ≤ l.classId)
    (hA0 : 0 ≤ l.xCenter) (hA1 : l.xCenter ≤ 1)
    (hB0 : 0 ≤ l.yCenter) (hB1 : l.yCenter ≤ 1)
    (hU0 : 0 ≤ l.width) (hU1 : l.width ≤ 1)
    (hV0 : 0 ≤ l.height) (hV1 : l.height ≤ 1) :
    parseYoloTxt [lineToks l] W H imageId =
      [{ id := "bbox_" ++ toString 0
         imageId := imageId
         classId := l.classId
         x := max 0 ((l.xCenter - l.width / 2) * W)
         y := max 0 ((l.yCenter - l.height / 2) * H)
         w := min (W - max 0 ((l.xCenter - l.width / 2) * W)) (l.width * W)
         h := min (H - max 0 ((l.yCenter - l.height / 2) * H)) (l.height * H) }] := by
  rw [parseYoloTxt, if_neg (by push_neg; exact ⟨hW, hH⟩)]
  show List.filterMap (fun p => parseLine W H imageId p.1 p.2)
    [(0, lineToks l)] = _
  simp only [List.filterMap_cons, List.filterMap_nil,
    parseLine_lineToks l W H imageId 0 hc hA0 hA1 hB0 hB1 hU0 hU1 hV0 hV1]

/-- One axis of the round-trip bound: with the serialized center and size
within half an ulp (`1/2000000`) of the exact normalized values, the
reconstructed clamped position and size are within `3/4` of a pixel of
the original, for an image extent of at most `10^6` pixels. -/
theorem axis_roundtrip (X S W a u xc wd : ℚ) (hW : 0 < W)
    (hWm : W ≤ 1000000) (hX : 0 ≤ X) (hS : 0 < S) (hXS : X + S ≤ W)
    (hxcW : xc * W = X + S / 2) (hwdW : wd * W = S)
    (ha1 : a ≤ xc + 1 / 2000000) (ha2 : xc - 1 / 2000000 < a)
    (hu1 : u ≤ wd + 1 / 2000000) (hu2 : wd - 1 / 2000000 < u) :
    |max 0 ((a - u / 2) * W) - X| ≤ 3 / 4 ∧
    |min (W - max 0 ((a - u / 2) * W)) (u * W) - S| ≤ 3 / 4 := by
  have hup : (a - u / 2) * W ≤ X + 3 / 4 := by
    have h := mul_le_mul_of_nonneg_right
      (show a - u / 2 ≤ xc - wd / 2 + 3 / 4000000 by linarith) hW.le
    nlinarith [h]
  have hdown : X - 3 / 4 ≤ (a - u / 2) * W := by
    have h := mul_le_mul_of_nonneg_right
      (show xc - wd / 2 - 3 / 4000000 ≤ a - u / 2 by linarith) hW.le
    nlinarith [h]
  have hx2le : max 0 ((a - u / 2) * W) ≤ X + 3 / 4 := max_le (by linarith) hup
  have hx2ge : X - 3 / 4 ≤ max 0 ((a - u / 2) * W) :=
    le_trans hdown (le_max_right _ _)
  have huWle : u * W ≤ S + 1 / 2 := by
    have h := mul_le_mul_of_nonneg_right hu1 hW.le
    nlinarith [h]
  have huWge : S - 1 / 2 ≤ u * W := by
    have h := mul_le_mul_of_nonneg_right (le_of_lt hu2) hW.le
    nlinarith [h]
  constructor
  · rw [abs_le]
    constructor <;> linarith
  · have hle : min (W - max 0 ((a - u / 2) * W)) (u * W) ≤ S + 1 / 2 :=
      le_trans (min_le_right _ _) huWle
    have hge : S - 3 / 4 ≤ min (W - max 0 ((a - u / 2) * W)) (u * W) :=
      le_min (by linarith) (by linarith)
    rw [abs_le]
    constructor <;> linarith

/-- C1 counterexample: for the invariant-satisfying 1x1 box `c1Box` on a
10^7 x 1 image, the round-trip yields exactly one box, but that box has
`w = 0`: the reconstructed width differs from the original by a full
pixel (not `< 1`), and the serialized normalized width 0 misses the exact
normalized width 10^-7 by far more than the claimed `10^-6` RELATIVE
tolerance. -/
theorem c1_roundtrip_counterexample :
    (parseYoloTxt ((toYoloTxt [c1Box] 10000000 1).map lineToks) 10000000 1
        "img1").map (fun b2 => (b2.x, b2.y, b2.w, b2.h)) = [(0, 0, 0, 1)] ∧
    ¬(∀ b2 ∈ parseYoloTxt ((toYoloTxt [c1Box] 10000000 1).map lineToks)
        10000000 1 "img1", |b2.w - c1Box.w| < 1) ∧
    (1 / 1000000) * |c1Box.w / 10000000| <
      |(toYoloLine c1Box 10000000 1).width - c1Box.w / 10000000| := by
  have hline : toYoloLine c1Box 10000000 1 = ⟨0, 0, 1 / 2, 0, 1⟩ := by
    rw [toYoloLine]
    norm_num [c1Box, round6, min_def, max_def]
  have htx : toYoloTxt [c1Box] 10000000 1 = [⟨0, 0, 1 / 2, 0, 1⟩] := by
    rw [toYoloTxt, if_neg (by norm_num)]
    rw [List.map_cons, List.map_nil, hline]
  have hfull : parseYoloTxt ((toYoloTxt [c1Box] 10000000 1).map lineToks)
      10000000 1 "img1" =
      [{ id := "bbox_" ++ toString 0, imageId := "img1", classId := 0,
         x := 0, y := 0, w := 0, h := 1 }] := by
    rw [htx, List.map_cons, List.map_nil]
    rw [parseYoloTxt_single ⟨0, 0, 1 / 2, 0, 1⟩ 10000000 1 "img1"
      (by norm_num) (by norm_num) (by norm_num) (by norm_num) (by norm_num)
      (by norm_num) (by norm_num) (by norm_num) (by norm_num) (by norm_num)
      (by norm_num)]
    norm_num [min_def, max_def]
  refine ⟨by rw [hfull]; norm_num, ?_, ?_⟩
  · intro hall
    have hm := hall _ (by rw [hfull]; exact List.mem_singleton_self _)
    norm_num [c1Box] at hm
  · rw [hline]
    have h1 : c1Box.w = 1 := rfl
    rw [h1]
    rw [show |(0 : ℚ) - 1 / 10000000| = 1 / 10000000 by
      rw [zero_sub, abs_neg, abs_of_nonneg] <;> norm_num]
    rw [show |(1 : ℚ) / 10000000| = 1 / 10000000 from abs_of_nonneg (by norm_num)]
    norm_num

end YoloLabel

namespace YoloLabel

/-- C1 amended: for a Box satisfying the data-model invariants (with a
nonnegative class id, as class ids are) and positive image dimensions of
at most 10^6 pixels, parsing the serialized line yields exactly one box;
the serialized normalized center/size fields differ from the exact
normalized values by at most 10^-6 in ABSOLUTE value (the claimed
relative tolerance fails for tiny boxes, and the sub-pixel bound fails
for images wider than about 10^6 pixels — see the counterexample); and
each reconstructed pixel coordinate differs from the original by less
than 1 pixel. -/
theorem c1_roundtrip_subpixel (b : BBox) (W H : ℚ)
    (hW : 0 < W) (hH : 0 < H) (hWm : W ≤ 1000000) (hHm : H ≤ 1000000)
    (hcls : 0 ≤ b.classId) (hx : 0 ≤ b.x) (hy : 0 ≤ b.y)
    (hw : 0 < b.w) (hh : 0 < b.h) (hxw : b.x + b.w ≤ W)
    (hyh : b.y + b.h ≤ H) :
    ∃ b2 : BBox,
      parseYoloTxt ((toYoloTxt [b] W H).map lineToks) W H b.imageId = [b2] ∧
      |(toYoloLine b W H).xCenter - (b.x + b.w / 2) / W| ≤ 1 / 1000000 ∧
      |(toYoloLine b W H).yCenter - (b.y + b.h / 2) / H| ≤ 1 / 1000000 ∧
      |(toYoloLine b W H).width - b.w / W| ≤ 1 / 1000000 ∧
      |(toYoloLine b W H).height - b.h / H| ≤ 1 / 1000000 ∧
      |b2.x - b.x| < 1 ∧ |b2.y - b.y| < 1 ∧ |b2.w - b.w| < 1 ∧
      |b2.h - b.h| < 1 := by
  have hxc0 : 0 ≤ (b.x + b.w / 2) / W := div_nonneg (by linarith) hW.le
  have hxc1 : (b.x + b.w / 2) / W ≤ 1 := by
    rw [div_le_one hW]
    linarith
  have hyc0 : 0 ≤ (b.y + b.h / 2) / H := div_nonneg (by linarith) hH.le
  have hyc1 : (b.y + b.h / 2) / H ≤ 1 := by
    rw [div_le_one hH]
    linarith
  have hwd0 : 0 ≤ b.w / W := div_nonneg hw.le hW.le
  have hwd1 : b.w / W ≤ 1 := by
    rw [div_le_one hW]
    linarith
  have hht0 : 0 ≤ b.h / H := div_nonneg hh.le hH.le
  have hht1 : b.h / H ≤ 1 := by
    rw [div_le_one hH]
    linarith
  have hA : (toYoloLine b W H).xCenter = round6 ((b.x + b.w / 2) / W) := by
    show round6 (max 0 (min 1 ((b.x + b.w / 2) / W))) = _
    rw [min_eq_right hxc1, max_eq_right hxc0]
  have hB : (toYoloLine b W H).yCenter = round6 ((b.y + b.h / 2) / H) := by
    show round6 (max 0 (min 1 ((b.y + b.h / 2) / H))) = _
    rw [min_eq_right hyc1, max_eq_right hyc0]
  have hU : (toYoloLine b W H).width = round6 (b.w / W) := by
    show round6 (max 0 (min 1 (b.w / W))) = _
    rw [min_eq_right hwd1, max_eq_right hwd0]
  have hV : (toYoloLine b W H).height = round6 (b.h / H) := by
    show round6 (max 0 (min 1 (b.h / H))) = _
    rw [min_eq_right hht1, max_eq_right hht0]
  have hA0 : 0 ≤ (toYoloLine b W H).xCenter := by
    rw [hA]; exact round6_nonneg _ hxc0
  have hA1 : (toYoloLine b W H).xCenter ≤ 1 := by
    rw [hA]; exact round6_le_one _ hxc1
  have hB0 : 0 ≤ (toYoloLine b W H).yCenter := by
    rw [hB]; exact round6_nonneg _ hyc0
  have hB1 : (toYoloLine b W H).yCenter ≤ 1 := by
    rw [hB]; exact round6_le_one _ hyc1
  have hU0 : 0 ≤ (toYoloLine b W H).width := by
    rw [hU]; exact round6_nonneg _ hwd0
  have hU1 : (toYoloLine b W H).width ≤ 1 := by
    rw [hU]; exact round6_le_one _ hwd1
  have hV0 : 0 ≤ (toYoloLine b W H).height := by
    rw [hV]; exact round6_nonneg _ hht0
  have hV1 : (toYoloLine b W H).height ≤ 1 := by
    rw [hV]; exact round6_le_one _ hht1
  have htx : (toYoloTxt [b] W H).map lineToks = [lineToks (toYoloLine b W H)] := by
    rw [toYoloTxt, if_neg]
    · rfl
    · push_neg
      exact ⟨by simp, hW, hH⟩
  have haxisX := axis_roundtrip b.x b.w W (toYoloLine b W H).xCenter
    (toYoloLine b W H).width ((b.x + b.w / 2) / W) (b.w / W) hW hWm hx hw hxw
    (div_mul_cancel₀ _ (ne_of_gt hW)) (div_mul_cancel₀ _ (ne_of_gt hW))
    (by rw [hA]; exact round6_le _) (by rw [hA]; exact round6_gt _)
    (by rw [hU]; exact round6_le _) (by rw [hU]; exact round6_gt _)
  have haxisY := axis_roundtrip b.y b.h H (toYoloLine b W H).yCenter
    (toYoloLine b W H).height ((b.y + b.h / 2) / H) (b.h / H) hH hHm hy hh hyh
    (div_mul_cancel₀ _ (ne_of_gt hH)) (div_mul_cancel₀ _ (ne_of_gt hH))
    (by rw [hB]; exact round6_le _) (by rw [hB]; exact round6_gt _)
    (by rw [hV]; exact round6_le _) (by rw [hV]; exact round6_gt _)
  refine ⟨{ id := "bbox_" ++ toString 0
            imageId := b.imageId
            classId := (toYoloLine b W H).classId
            x := max 0 (((toYoloLine b W H).xCenter -
              (toYoloLine b W H).width / 2) * W)
            y := max 0 (((toYoloLine b W H).yCenter -
              (toYoloLine b W H).height / 2) * H)
            w := min (W - max 0 (((toYoloLine b W H).xCenter -
              (toYoloLine b W H).width / 2) * W)) ((toYoloLine b W H).width * W)
            h := min (H - max 0 (((toYoloLine b W H).yCenter -
              (toYoloLine b W H).height / 2) * H))
              ((toYoloLine b W H).height * H) }, ?_, ?_, ?_, ?_, ?_, ?_, ?_, ?_, ?_⟩
  · rw [htx]
    exact parseYoloTxt_single (toYoloLine b W H) W H b.imageId hW hH hcls
      hA0 hA1 hB0 hB1 hU0 hU1 hV0 hV1
  · rw [hA, abs_le]
    have h1 := round6_le ((b.x + b.w / 2) / W)
    have h2 := round6_gt ((b.x + b.w / 2) / W)
    constructor <;> linarith
  · rw [hB, abs_le]
    have h1 := round6_le ((b.y + b.h / 2) / H)
    have h2 := round6_gt ((b.y + b.h / 2) / H)
    constructor <;> linarith
  · rw [hU, abs_le]
    have h1 := round6_le (b.w / W)
    have h2 := round6_gt (b.w / W)
    constructor <;> linarith
  · rw [hV, abs_le]
    have h1 := round6_le (b.h / H)
    have h2 := round6_gt (b.h / H)
    constructor <;> linarith
  · exact lt_of_le_of_lt haxisX.1 (by norm_num)
  · exact lt_of_le_of_lt haxisY.1 (by norm_num)
  · exact lt_of_le_of_lt haxisX.2 (by norm_num)
  · exact lt_of_le_of_lt haxisY.2 (by norm_num)

/-- C1 witness: the amended round-trip theorem applied to a concrete
10..40 box on a 100x100 image: the round-trip yields exactly one box. -/
theorem c1_roundtrip_subpixel_witness :
    (parseYoloTxt ((toYoloTxt [c1WitnessBox] 100 100).map lineToks) 100 100
      "imgW").length = 1 := by
  obtain ⟨b2, heq, -, -, -, -, -, -, -, -⟩ :=
    c1_roundtrip_subpixel c1WitnessBox 100 100 (by norm_num) (by norm_num)
      (by norm_num) (by norm_num) (by norm_num [c1WitnessBox])
      (by norm_num [c1WitnessBox]) (by norm_num [c1WitnessBox])
      (by norm_num [c1WitnessBox]) (by norm_num [c1WitnessBox])
      (by norm_num [c1WitnessBox]) (by norm_num [c1WitnessBox])
  show (parseYoloTxt ((toYoloTxt [c1WitnessBox] 100 100).map lineToks) 100 100
    c1WitnessBox.imageId).length = 1
  rw [heq]
  rfl

end YoloLabel
